import Mathlib

/-!
Verification of the atomic transfer core of the `internal-transfers` service.

The embedding follows the Go source:
* `database/queries.go` — `AccountRepository` and `TransactionRepository`
  (the SQL-backed transfer engine), together with the schema constraints of
  `database/migrations.go` (`CHECK (balance >= 0)` on `accounts`,
  `CHECK (amount > 0)` and `CHECK (source_account_id != destination_account_id)`
  on `transactions`, `PRIMARY KEY (account_id)`).
* `handlers/handlers.go` — `Handler.CreateAccount` and
  `Handler.CreateTransaction` (validation order and error-to-status mapping).
* `handlers/handlers_test.go` — `MockTransactionRepository.CreateTransaction`,
  the in-memory test double of the transfer engine.

Balances and amounts are exact rationals, mirroring the arbitrary-precision
decimal values used by the source (no binary floating point anywhere).
Account ids are integers (`int64` in the source; no id arithmetic occurs, so
no overflow discipline is needed).  Storage faults are injected through a
record of flags, one per SQL statement the engine issues; a database
transaction buffers all its writes and publishes them only at a successful
commit, so every error path of the engine leaves the committed state as it
was (`defer tx.Rollback()` in the source).  Errors are the exact Go error
strings, because the handler discriminates failures by string comparison.
-/

/-- One row of the `transactions` table: source id, destination id, amount. -/
structure Txn where
  source : Int
  dest : Int
  amount : ℚ
deriving DecidableEq, Repr

/-- The committed database state: the `accounts` table (account_id, balance)
and the `transactions` table. -/
structure DBState where
  accounts : List (Int × ℚ)
  transactions : List Txn
deriving DecidableEq, Repr

/-- Balance of the first row with the given account id
(`SELECT balance FROM accounts WHERE account_id = $1`; ids are a primary key,
so at most one row matches). -/
def lookupBalance : List (Int × ℚ) → Int → Option ℚ
  | [], _ => none
  | (k, v) :: rest, i => if k = i then some v else lookupBalance rest i

/-- Row-wise balance adjustment
(`UPDATE accounts SET balance = balance + d WHERE account_id = i`): every row
whose id matches gets `d` added to its current balance, every other row is
untouched. -/
def addBalance : List (Int × ℚ) → Int → ℚ → List (Int × ℚ)
  | [], _, _ => []
  | (k, v) :: rest, i, d =>
    (if k = i then (k, v + d) else (k, v)) :: addBalance rest i d

/-- The `CHECK (balance >= 0)` constraint of the `accounts` schema, evaluated
on the rows an `UPDATE ... SET balance = balance + d WHERE account_id = i`
would touch: the update succeeds iff every touched row stays non-negative. -/
def updateOK (l : List (Int × ℚ)) (i : Int) (d : ℚ) : Prop :=
  ∀ p ∈ l, p.1 = i → 0 ≤ p.2 + d

instance (l : List (Int × ℚ)) (i : Int) (d : ℚ) : Decidable (updateOK l i d) :=
  List.decidableBAll _ l

/-- Injected storage faults, one flag per SQL statement the repositories
issue.  A set flag makes that statement fail with the storage error the Go
code wraps it in. -/
structure Faults where
  beginTx : Bool
  selectSource : Bool
  selectDest : Bool
  updateSource : Bool
  updateDest : Bool
  insertRecord : Bool
  commitTx : Bool
  existsQuery : Bool
  insertAccount : Bool
deriving DecidableEq, Repr

/-- A fault-free storage layer. -/
def noFaults : Faults :=
  ⟨false, false, false, false, false, false, false, false, false⟩

/-- Shallow embedding of `TransactionRepository.CreateTransaction`
(`database/queries.go`).  The statement order is the source's: begin; select
source row for update (missing row ⇒ "source account not found"); balance
check (`sourceBalance.LessThan(amount)` ⇒ "insufficient balance"); select
destination row for update (missing ⇒ "destination account not found");
update source balance; update destination balance; insert the transfer
record; commit.  The two updates and the insert are subject to the schema
constraints of `database/migrations.go`.  All writes are buffered in the
transaction and only become the committed state at a successful commit; any
error rolls the transaction back, which in this embedding is returning the
error without a state. -/
def createTransactionSQL (db : DBState) (src dst : Int) (a : ℚ) (f : Faults) :
    Except String DBState :=
  if f.beginTx then .error "failed to begin transaction"
  else if f.selectSource then .error "failed to get source account"
  else match lookupBalance db.accounts src with
  | none => .error "source account not found"
  | some sourceBalance =>
    if sourceBalance < a then .error "insufficient balance"
    else if f.selectDest then .error "failed to get destination account"
    else match lookupBalance db.accounts dst with
    | none => .error "destination account not found"
    | some _ =>
      if f.updateSource then .error "failed to update source account"
      else if ¬ updateOK db.accounts src (-a) then
        .error "failed to update source account"
      else
        let accounts1 := addBalance db.accounts src (-a)
        if f.updateDest then .error "failed to update destination account"
        else if ¬ updateOK accounts1 dst a then
          .error "failed to update destination account"
        else
          let accounts2 := addBalance accounts1 dst a
          if f.insertRecord then .error "failed to create transaction record"
          else if src = dst ∨ a ≤ 0 then
            .error "failed to create transaction record"
          else if f.commitTx then .error "failed to commit transaction"
          else .ok ⟨accounts2, db.transactions ++ [⟨src, dst, a⟩]⟩

/-- The state a caller observes after `CreateTransaction`: the new committed
state on success, the unchanged pre-call state together with the error on
failure (the transaction was rolled back). -/
def runTransfer (db : DBState) (src dst : Int) (a : ℚ) (f : Faults) :
    DBState × Option String :=
  match createTransactionSQL db src dst a f with
  | .ok db2 => (db2, none)
  | .error e => (db, some e)

/-- Shallow embedding of `AccountRepository.CreateAccount`
(`database/queries.go`): a single `INSERT INTO accounts`, subject to the
primary-key constraint and the `CHECK (balance >= 0)` constraint.  The Go
code wraps every insert failure in the same "failed to create account"
error. -/
def createAccountSQL (db : DBState) (i : Int) (bal : ℚ) (f : Faults) :
    Except String DBState :=
  if f.insertAccount then .error "failed to create account"
  else if (lookupBalance db.accounts i).isSome then .error "failed to create account"
  else if bal < 0 then .error "failed to create account"
  else .ok ⟨db.accounts ++ [(i, bal)], db.transactions⟩

/-- Shallow embedding of `MockTransactionRepository.CreateTransaction`
(`handlers/handlers_test.go`): source existence, then destination existence,
then the balance check, then the two in-place balance adjustments (the
second one reads the balance current after the first, exactly as the Go
pointer aliasing does). -/
def mockCreateTransaction (accounts : List (Int × ℚ)) (src dst : Int) (a : ℚ) :
    Except String (List (Int × ℚ)) :=
  match lookupBalance accounts src with
  | none => .error "source account not found"
  | some sourceBalance =>
    match lookupBalance accounts dst with
    | none => .error "destination account not found"
    | some _ =>
      if sourceBalance < a then .error "insufficient balance"
      else
        let accounts1 := addBalance accounts src (-a)
        .ok (addBalance accounts1 dst a)

/-- Outcome kind of a repository call: `none` for success, the error string
otherwise (the handler discriminates outcomes exactly by these strings). -/
def kindOf {α : Type} : Except String α → Option String
  | .ok _ => none
  | .error e => some e

/-- Digit list to number, most significant first. -/
def digitsVal (cs : List Char) : Nat :=
  cs.foldl (fun n c => 10 * n + (c.toNat - Char.toNat '0')) 0

/-- Characters before the first dot. -/
def intPart : List Char → List Char
  | [] => []
  | c :: rest => if c = '.' then [] else c :: intPart rest

/-- Characters after the first dot, when a dot is present. -/
def fracPart : List Char → Option (List Char)
  | [] => none
  | c :: rest => if c = '.' then some rest else fracPart rest

/-- Holds of a non-empty run of decimal digits. -/
def DigitString (cs : List Char) : Prop :=
  cs ≠ [] ∧ ∀ c ∈ cs, c.isDigit = true

instance (cs : List Char) : Decidable (DigitString cs) :=
  instDecidableAnd

/-- Modelled from the spec: the unsigned part of the decimal-string grammar of
§6 — one or more digits, optionally followed by a dot and one or more digits;
anything else (scientific notation, non-numeric text, a second dot) is
malformed.  This models the external parsing utility
(`decimal.NewFromString` of the shopspring decimal dependency, which is not
part of this repository's sources); the spec declares it an external
collaborator and fixes its contract to exactly this grammar. -/
def parseUnsigned (cs : List Char) : Option ℚ :=
  match fracPart cs with
  | none =>
    if DigitString (intPart cs) then some (digitsVal (intPart cs) : ℚ) else none
  | some fp =>
    if DigitString (intPart cs) ∧ DigitString fp then
      some ((digitsVal (intPart cs) : ℚ) + (digitsVal fp : ℚ) / ((10 : ℚ) ^ fp.length))
    else none

/-- Modelled from the spec: exact parsing of a signed decimal string — an
optional leading minus sign (the decimal value type of §2 is signed; the
negative-balance validation of the handlers relies on negative strings
parsing), then `parseUnsigned`. -/
def parseDecimal (s : String) : Option ℚ :=
  match s.data with
  | [] => none
  | c :: rest =>
    if c = '-' then (parseUnsigned rest).map (fun q => -q)
    else parseUnsigned (c :: rest)

/-- Request body of `POST /accounts` after JSON decoding
(`models.CreateAccountRequest`): the id as an integer, the initial balance
still a raw string. -/
structure CreateAccountRequest where
  accountID : Int
  initialBalance : String

/-- Request body of `POST /transactions` after JSON decoding
(`models.CreateTransactionRequest`). -/
structure CreateTransactionRequest where
  sourceAccountID : Int
  destinationAccountID : Int
  amount : String

/-- What a handler call produces: the HTTP status written, the committed
database state afterwards, and whether any repository operation was invoked
(storage access). -/
structure HResp where
  status : Nat
  db : DBState
  accessed : Bool
deriving DecidableEq, Repr

/-- The `switch err.Error()` of `Handler.CreateTransaction`
(`handlers/handlers.go`): the three business-rule error strings map to 404,
404 and 400; every other error is a server fault, 500. -/
def mapTxError (e : String) : Nat :=
  if e = "source account not found" then 404
  else if e = "destination account not found" then 404
  else if e = "insufficient balance" then 400
  else 500

/-- Shallow embedding of `Handler.CreateAccount` (`handlers/handlers.go`),
starting after JSON decoding: positive-id check, balance parsing,
non-negativity check (`initialBalance.IsNegative()`), the `AccountExists`
repository query (a fault there is a 500; an existing id a 409), then
`CreateAccount` (a failure there is a 500), else 201. -/
def createAccountHandler (db : DBState) (f : Faults) (req : CreateAccountRequest) : HResp :=
  if req.accountID ≤ 0 then ⟨400, db, false⟩
  else match parseDecimal req.initialBalance with
  | none => ⟨400, db, false⟩
  | some bal =>
    if bal < 0 then ⟨400, db, false⟩
    else if f.existsQuery then ⟨500, db, true⟩
    else if (lookupBalance db.accounts req.accountID).isSome then ⟨409, db, true⟩
    else match createAccountSQL db req.accountID bal f with
    | .ok db2 => ⟨201, db2, true⟩
    | .error _ => ⟨500, db, true⟩

/-- Shallow embedding of `Handler.CreateTransaction` (`handlers/handlers.go`),
starting after JSON decoding: positive-ids check, same-account check, amount
parsing, positivity check (`amount.IsZero() || amount.IsNegative()`), then
the transfer engine, whose error string is mapped by `mapTxError`; success
is a 201. -/
def createTransactionHandler (db : DBState) (f : Faults) (req : CreateTransactionRequest) : HResp :=
  if req.sourceAccountID ≤ 0 ∨ req.destinationAccountID ≤ 0 then ⟨400, db, false⟩
  else if req.sourceAccountID = req.destinationAccountID then ⟨400, db, false⟩
  else match parseDecimal req.amount with
  | none => ⟨400, db, false⟩
  | some a =>
    if a = 0 ∨ a < 0 then ⟨400, db, false⟩
    else match createTransactionSQL db req.sourceAccountID req.destinationAccountID a f with
    | .ok db2 => ⟨201, db2, true⟩
    | .error e => ⟨mapTxError e, db, true⟩

/-- One inbound mutating request: an account creation or a transfer, each
with the storage faults its execution will encounter. -/
inductive Op where
  | newAccount (i : Int) (bal : String) (f : Faults)
  | newTransfer (src dst : Int) (amount : String) (f : Faults)

/-- The committed state after a handler finishes one request. -/
def applyOp (db : DBState) (op : Op) : DBState :=
  match op with
  | .newAccount i bal f => (createAccountHandler db f ⟨i, bal⟩).db
  | .newTransfer src dst a f => (createTransactionHandler db f ⟨src, dst, a⟩).db

/-- The state reached from the empty store by a sequence of requests. -/
def runOps (ops : List Op) : DBState := ops.foldl applyOp ⟨[], []⟩

/-- Holds of a string containing a character that can never occur in a
well-formed decimal string: anything other than a digit, a dot or a minus
sign (so in particular an exponent marker or alphabetic text). -/
def hasBadChar (s : String) : Prop :=
  ∃ c ∈ s.data, c.isDigit = false ∧ c ≠ '.' ∧ c ≠ '-'

instance (s : String) : Decidable (hasBadChar s) :=
  List.decidableBEx _ s.data

/-! Helper lemmas about the state primitives. -/

theorem lookupBalance_append_left {l1 : List (Int × ℚ)} {i : Int} {b : ℚ}
    (h : lookupBalance l1 i = some b) (l2 : List (Int × ℚ)) :
    lookupBalance (l1 ++ l2) i = some b := by
  induction l1 with
  | nil => exact absurd h (by simp [lookupBalance])
  | cons p rest ih =>
    obtain ⟨k, v⟩ := p
    rw [List.cons_append]
    by_cases hk : k = i
    · simp only [lookupBalance, if_pos hk] at h ⊢
      exact h
    · simp only [lookupBalance, if_neg hk] at h ⊢
      exact ih h

theorem lookupBalance_append_right {l1 : List (Int × ℚ)} {i : Int}
    (h : lookupBalance l1 i = none) (l2 : List (Int × ℚ)) :
    lookupBalance (l1 ++ l2) i = lookupBalance l2 i := by
  induction l1 with
  | nil => rfl
  | cons p rest ih =>
    obtain ⟨k, v⟩ := p
    rw [List.cons_append]
    by_cases hk : k = i
    · simp only [lookupBalance, if_pos hk] at h
      exact Option.noConfusion h
    · simp only [lookupBalance, if_neg hk] at h ⊢
      exact ih h

theorem lookupBalance_mem {l : List (Int × ℚ)} {i : Int} {b : ℚ}
    (h : lookupBalance l i = some b) : (i, b) ∈ l := by
  induction l with
  | nil => exact absurd h (by simp [lookupBalance])
  | cons p rest ih =>
    obtain ⟨k, v⟩ := p
    by_cases hk : k = i
    · subst hk
      simp only [lookupBalance] at h
      rw [if_true] at h
      have hv := Option.some.inj h
      subst hv
      exact List.mem_cons_self _ _
    · simp only [lookupBalance, if_neg hk] at h
      exact List.mem_cons_of_mem _ (ih h)

theorem lookupBalance_addBalance (i : Int) (d : ℚ) (j : Int) :
    ∀ l : List (Int × ℚ),
      lookupBalance (addBalance l i d) j
        = (lookupBalance l j).map (fun v => if j = i then v + d else v) := by
  intro l
  induction l with
  | nil => rfl
  | cons p rest ih =>
    obtain ⟨k, v⟩ := p
    simp only [addBalance]
    by_cases hk : k = i
    · rw [if_pos hk]
      simp only [lookupBalance]
      by_cases hj : k = j
      · rw [if_pos hj, if_pos hj]
        have hji : j = i := hj ▸ hk
        show some (v + d) = some (if j = i then v + d else v)
        rw [if_pos hji]
      · rw [if_neg hj, if_neg hj]
        exact ih
    · rw [if_neg hk]
      simp only [lookupBalance]
      by_cases hj : k = j
      · rw [if_pos hj, if_pos hj]
        have hji : ¬ j = i := fun hji => hk (hj.trans hji)
        show some v = some (if j = i then v + d else v)
        rw [if_neg hji]
      · rw [if_neg hj, if_neg hj]
        exact ih

theorem updateOK_of_lookup_nodup (d : ℚ) :
    ∀ (l : List (Int × ℚ)) (i : Int) (b : ℚ),
      (l.map Prod.fst).Nodup → lookupBalance l i = some b → 0 ≤ b + d →
        updateOK l i d := by
  intro l
  induction l with
  | nil => intro i b _ h _; exact absurd h (by simp [lookupBalance])
  | cons q rest ih =>
    intro i b hnd h hb
    obtain ⟨k, v⟩ := q
    simp only [List.map_cons, List.nodup_cons] at hnd
    by_cases hk : k = i
    · subst hk
      simp only [lookupBalance] at h
      rw [if_true] at h
      have hv := Option.some.inj h
      intro p hp hpk
      rcases List.mem_cons.mp hp with hc | hc
      · rw [hc]
        show 0 ≤ v + d
        rw [hv]
        exact hb
      · exact absurd (hpk ▸ List.mem_map_of_mem Prod.fst hc) hnd.1
    · simp only [lookupBalance, if_neg hk] at h
      intro p hp hpi
      rcases List.mem_cons.mp hp with hc | hc
      · exact absurd (by rw [hc] at hpi; exact hpi) hk
      · exact ih i b hnd.2 h hb p hc hpi

theorem addBalance_nonneg (i : Int) (d : ℚ) :
    ∀ l : List (Int × ℚ), (∀ p ∈ l, 0 ≤ p.2) → updateOK l i d →
      ∀ p ∈ addBalance l i d, 0 ≤ p.2 := by
  intro l
  induction l with
  | nil => intro _ _ p hp; exact absurd hp (List.not_mem_nil p)
  | cons q rest ih =>
    intro hl hok p hp
    obtain ⟨k, v⟩ := q
    simp only [addBalance] at hp
    rcases List.mem_cons.mp hp with hc | hc
    · by_cases hk : k = i
      · rw [if_pos hk] at hc
        rw [hc]
        exact hok (k, v) (List.mem_cons_self _ _) hk
      · rw [if_neg hk] at hc
        rw [hc]
        exact hl (k, v) (List.mem_cons_self _ _)
    · exact ih (fun p hp => hl p (List.mem_cons_of_mem _ hp))
        (fun p hp hpi => hok p (List.mem_cons_of_mem _ hp) hpi) p hc

/-- Inversion of a successful engine run: a success pins down every check the
transaction performed and the exact committed state. -/
theorem createTransactionSQL_ok_elim {db : DBState} {src dst : Int} {a : ℚ}
    {f : Faults} {db2 : DBState}
    (h : createTransactionSQL db src dst a f = .ok db2) :
    ∃ bA bB, lookupBalance db.accounts src = some bA ∧
      lookupBalance db.accounts dst = some bB ∧
      ¬ bA < a ∧ updateOK db.accounts src (-a) ∧
      updateOK (addBalance db.accounts src (-a)) dst a ∧
      ¬ src = dst ∧ ¬ a ≤ 0 ∧
      db2 = ⟨addBalance (addBalance db.accounts src (-a)) dst a,
             db.transactions ++ [⟨src, dst, a⟩]⟩ := by
  delta createTransactionSQL at h
  by_cases h1 : f.beginTx
  · rw [if_pos h1] at h; exact Except.noConfusion h
  rw [if_neg h1] at h
  by_cases h2 : f.selectSource
  · rw [if_pos h2] at h; exact Except.noConfusion h
  rw [if_neg h2] at h
  cases hsrc : lookupBalance db.accounts src with
  | none => rw [hsrc] at h; exact Except.noConfusion h
  | some bA =>
  rw [hsrc] at h
  dsimp only at h
  by_cases hlt : bA < a
  · rw [if_pos hlt] at h; exact Except.noConfusion h
  rw [if_neg hlt] at h
  by_cases h3 : f.selectDest
  · rw [if_pos h3] at h; exact Except.noConfusion h
  rw [if_neg h3] at h
  cases hdst : lookupBalance db.accounts dst with
  | none => rw [hdst] at h; exact Except.noConfusion h
  | some bB =>
  rw [hdst] at h
  dsimp only at h
  by_cases h4 : f.updateSource
  · rw [if_pos h4] at h; exact Except.noConfusion h
  rw [if_neg h4] at h
  by_cases hup1 : updateOK db.accounts src (-a)
  swap
  · rw [if_pos hup1] at h; exact Except.noConfusion h
  rw [if_neg (not_not.mpr hup1)] at h
  by_cases h5 : f.updateDest
  · rw [if_pos h5] at h; exact Except.noConfusion h
  rw [if_neg h5] at h
  by_cases hup2 : updateOK (addBalance db.accounts src (-a)) dst a
  swap
  · rw [if_pos hup2] at h; exact Except.noConfusion h
  rw [if_neg (not_not.mpr hup2)] at h
  by_cases h6 : f.insertRecord
  · rw [if_pos h6] at h; exact Except.noConfusion h
  rw [if_neg h6] at h
  by_cases hins : src = dst ∨ a ≤ 0
  · rw [if_pos hins] at h; exact Except.noConfusion h
  rw [if_neg hins] at h
  by_cases h7 : f.commitTx
  · rw [if_pos h7] at h; exact Except.noConfusion h
  rw [if_neg h7] at h
  refine ⟨bA, bB, rfl, rfl, hlt, hup1, hup2, ?_, ?_, ?_⟩
  · exact fun hc => hins (Or.inl hc)
  · exact fun hc => hins (Or.inr hc)
  · exact (Except.ok.inj h).symm

/-- Balance adjustments do not change the set of account ids. -/
theorem addBalance_keys (i : Int) (d : ℚ) :
    ∀ l : List (Int × ℚ), (addBalance l i d).map Prod.fst = l.map Prod.fst := by
  intro l
  induction l with
  | nil => rfl
  | cons p rest ih =>
    obtain ⟨k, v⟩ := p
    by_cases hk : k = i
    · simp only [addBalance, if_pos hk, List.map_cons, ih]
    · simp only [addBalance, if_neg hk, List.map_cons, ih]

/-- Introduction of a successful fault-free engine run: when every check
passes, the committed state is exactly the two adjustments plus the appended
record. -/
theorem createTransactionSQL_ok_intro {db : DBState} {src dst : Int} {a bA bB : ℚ}
    (hsrc : lookupBalance db.accounts src = some bA)
    (hdst : lookupBalance db.accounts dst = some bB)
    (hlt : ¬ bA < a)
    (hup1 : updateOK db.accounts src (-a))
    (hup2 : updateOK (addBalance db.accounts src (-a)) dst a)
    (hne : ¬ src = dst) (hpos : ¬ a ≤ 0) :
    createTransactionSQL db src dst a noFaults
      = .ok ⟨addBalance (addBalance db.accounts src (-a)) dst a,
             db.transactions ++ [⟨src, dst, a⟩]⟩ := by
  delta createTransactionSQL
  rw [if_neg (by simp [noFaults]), if_neg (by simp [noFaults]), hsrc]
  dsimp only
  rw [if_neg hlt, if_neg (by simp [noFaults]), hdst]
  dsimp only
  rw [if_neg (by simp [noFaults]), if_neg (not_not.mpr hup1),
    if_neg (by simp [noFaults]), if_neg (not_not.mpr hup2),
    if_neg (by simp [noFaults]), if_neg (by exact fun hc => hc.elim hne hpos),
    if_neg (by simp [noFaults])]

/-- C1: whenever `CreateTransaction` fails — with any error at all, business
rule or injected storage fault at any statement — the state the caller
observes afterwards is exactly the pre-call state: every account keeps its
pre-call balance and the transactions table is unchanged. -/
theorem transfer_error_rollback
    (db : DBState) (src dst : Int) (a : ℚ) (f : Faults) (e : String)
    (h : (runTransfer db src dst a f).2 = some e) :
    (runTransfer db src dst a f).1 = db ∧
    (∀ i, lookupBalance (runTransfer db src dst a f).1.accounts i
        = lookupBalance db.accounts i) ∧
    (runTransfer db src dst a f).1.transactions = db.transactions := by
  cases hr : createTransactionSQL db src dst a f with
  | ok db2 =>
    rw [runTransfer, hr] at h
    exact Option.noConfusion h
  | error e2 =>
    rw [runTransfer, hr]
    exact ⟨rfl, fun i => rfl, rfl⟩

/-- Concrete instance of `transfer_error_rollback`: a transfer from a missing
account fails and leaves the (empty) store untouched. -/
theorem transfer_error_rollback_witness :
    (runTransfer ⟨[], []⟩ 1 2 5 noFaults).2 = some "source account not found" ∧
    (runTransfer ⟨[], []⟩ 1 2 5 noFaults).1 = (⟨[], []⟩ : DBState) :=
  ⟨by simp [runTransfer, createTransactionSQL, lookupBalance, noFaults],
   (transfer_error_rollback ⟨[], []⟩ 1 2 5 noFaults "source account not found"
     (by simp [runTransfer, createTransactionSQL, lookupBalance, noFaults])).1⟩

/-- C2: a successful transfer of amount `a` from `A` (balance `bA`) to `B`
(balance `bB`) leaves `A` with exactly `bA - a`, `B` with exactly `bB + a`,
in exact rational arithmetic, so the total `bA + bB` is conserved. -/
theorem transfer_success_conservation
    (db db2 : DBState) (A B : Int) (a bA bB : ℚ) (f : Faults)
    (hA : lookupBalance db.accounts A = some bA)
    (hB : lookupBalance db.accounts B = some bB)
    (h : createTransactionSQL db A B a f = .ok db2) :
    lookupBalance db2.accounts A = some (bA - a) ∧
    lookupBalance db2.accounts B = some (bB + a) ∧
    (bA - a) + (bB + a) = bA + bB := by
  obtain ⟨bA', bB', hA', hB', hlt, hup1, hup2, hne, hpos, hdb2⟩ :=
    createTransactionSQL_ok_elim h
  subst hdb2
  refine ⟨?_, ?_, by ring⟩
  · show lookupBalance (addBalance (addBalance db.accounts A (-a)) B a) A = some (bA - a)
    rw [lookupBalance_addBalance, lookupBalance_addBalance, hA,
      Option.map_some', Option.map_some']
    rw [if_neg hne, if_pos rfl, sub_eq_add_neg]
  · show lookupBalance (addBalance (addBalance db.accounts A (-a)) B a) B = some (bB + a)
    rw [lookupBalance_addBalance, lookupBalance_addBalance, hB,
      Option.map_some', Option.map_some']
    rw [if_neg (fun hc : B = A => hne hc.symm), if_pos rfl]

/-- Concrete instance of `transfer_success_conservation`: moving 4 from
account 1 (balance 10) to account 2 (balance 20). -/
theorem transfer_success_conservation_witness :
    lookupBalance (⟨[(1, 6), (2, 24)], [⟨1, 2, 4⟩]⟩ : DBState).accounts 1 = some (10 - 4) ∧
    lookupBalance (⟨[(1, 6), (2, 24)], [⟨1, 2, 4⟩]⟩ : DBState).accounts 2 = some (20 + 4) ∧
    ((10 : ℚ) - 4) + (20 + 4) = 10 + 20 :=
  transfer_success_conservation ⟨[(1, 10), (2, 20)], []⟩ ⟨[(1, 6), (2, 24)], [⟨1, 2, 4⟩]⟩
    1 2 4 10 20 noFaults
    (by simp [lookupBalance])
    (by simp [lookupBalance])
    (by simp [createTransactionSQL, lookupBalance, noFaults, updateOK, addBalance]
        norm_num [updateOK, addBalance])

/-- C4: the engine checks the source balance before destination existence —
with the source present and underfunded it reports "insufficient balance"
whatever the destination is, and only a sufficiently funded source with a
missing destination yields "destination account not found". -/
theorem balance_check_before_destination_check
    (db : DBState) (src dst : Int) (a bA : ℚ)
    (hsrc : lookupBalance db.accounts src = some bA) :
    (bA < a → createTransactionSQL db src dst a noFaults
        = .error "insufficient balance") ∧
    (¬ bA < a → lookupBalance db.accounts dst = none →
      createTransactionSQL db src dst a noFaults
        = .error "destination account not found") := by
  constructor
  · intro hlt
    delta createTransactionSQL
    rw [if_neg (by simp [noFaults]), if_neg (by simp [noFaults]), hsrc]
    dsimp only
    rw [if_pos hlt]
  · intro hlt hdst
    delta createTransactionSQL
    rw [if_neg (by simp [noFaults]), if_neg (by simp [noFaults]), hsrc]
    dsimp only
    rw [if_neg hlt, if_neg (by simp [noFaults]), hdst]

/-- Concrete instance of `balance_check_before_destination_check`: account 1
holds 50, account 2 does not exist; a transfer of 100 fails with the
insufficient-balance error, and a transfer of 30 fails with the
destination-not-found error. -/
theorem balance_check_before_destination_check_witness :
    createTransactionSQL ⟨[(1, 50)], []⟩ 1 2 100 noFaults
      = .error "insufficient balance" ∧
    createTransactionSQL ⟨[(1, 50)], []⟩ 1 2 30 noFaults
      = .error "destination account not found" :=
  ⟨(balance_check_before_destination_check ⟨[(1, 50)], []⟩ 1 2 100 50
      (by simp [lookupBalance])).1 (by norm_num),
   (balance_check_before_destination_check ⟨[(1, 50)], []⟩ 1 2 30 50
      (by simp [lookupBalance])).2 (by norm_num) (by simp [lookupBalance])⟩

/-- With the source present and sufficiently funded, no fault-free engine run
can report "insufficient balance", whatever else happens. -/
theorem createTransactionSQL_not_insufficient
    (db : DBState) (src dst : Int) (a bA bB : ℚ)
    (hsrc : lookupBalance db.accounts src = some bA)
    (hdst : lookupBalance db.accounts dst = some bB)
    (hlt : ¬ bA < a) :
    createTransactionSQL db src dst a noFaults ≠ .error "insufficient balance" := by
  delta createTransactionSQL
  rw [if_neg (by simp [noFaults]), if_neg (by simp [noFaults]), hsrc]
  dsimp only
  rw [if_neg hlt, if_neg (by simp [noFaults]), hdst]
  dsimp only
  rw [if_neg (by simp [noFaults])]
  by_cases hup1 : updateOK db.accounts src (-a)
  · rw [if_neg (not_not.mpr hup1)]
    by_cases hup2 : updateOK (addBalance db.accounts src (-a)) dst a
    · rw [if_neg (by simp [noFaults]), if_neg (not_not.mpr hup2),
        if_neg (by simp [noFaults])]
      by_cases hins : src = dst ∨ a ≤ 0
      · rw [if_pos hins]
        intro hc
        exact absurd (Except.error.inj hc) (by decide)
      · rw [if_neg hins, if_neg (by simp [noFaults])]
        exact fun hc => Except.noConfusion hc
    · rw [if_neg (by simp [noFaults]), if_pos hup2]
      intro hc
      exact absurd (Except.error.inj hc) (by decide)
  · rw [if_pos hup1]
    intro hc
    exact absurd (Except.error.inj hc) (by decide)

/-- C6: with both accounts present (a well-formed state: non-negative
balances, primary-key-unique ids) and a transfer obeying the contract's
preconditions (`src ≠ dst`, positive amount), the fault-free engine fails
with "insufficient balance" exactly when the source balance is strictly
below the amount; transferring the entire source balance succeeds and leaves
the source at exactly 0. -/
theorem exact_balance_transfer
    (db : DBState) (src dst : Int) (a bA bB : ℚ)
    (hnn : ∀ p ∈ db.accounts, 0 ≤ p.2)
    (hnd : (db.accounts.map Prod.fst).Nodup)
    (hsrc : lookupBalance db.accounts src = some bA)
    (hdst : lookupBalance db.accounts dst = some bB)
    (hne : src ≠ dst) (hpos : 0 < a) :
    (createTransactionSQL db src dst a noFaults = .error "insufficient balance"
      ↔ bA < a) ∧
    (a = bA → ∃ db2, createTransactionSQL db src dst a noFaults = .ok db2 ∧
      lookupBalance db2.accounts src = some 0) := by
  have hBnn : 0 ≤ bB := hnn (dst, bB) (lookupBalance_mem hdst)
  have hlookup1 : lookupBalance (addBalance db.accounts src (-a)) dst = some bB := by
    rw [lookupBalance_addBalance, hdst, Option.map_some']
    rw [if_neg (fun hc : dst = src => hne hc.symm)]
  have hnd1 : ((addBalance db.accounts src (-a)).map Prod.fst).Nodup := by
    rw [addBalance_keys]
    exact hnd
  have hup2 : updateOK (addBalance db.accounts src (-a)) dst a :=
    updateOK_of_lookup_nodup a _ dst bB hnd1 hlookup1 (by linarith)
  constructor
  · constructor
    · intro herr
      by_contra hlt
      exact createTransactionSQL_not_insufficient db src dst a bA bB hsrc hdst hlt herr
    · intro hlt
      delta createTransactionSQL
      rw [if_neg (by simp [noFaults]), if_neg (by simp [noFaults]), hsrc]
      dsimp only
      rw [if_pos hlt]
  · intro haeq
    have hle : ¬ bA < a := by
      rw [haeq]
      exact lt_irrefl bA
    have hup1 : updateOK db.accounts src (-a) :=
      updateOK_of_lookup_nodup (-a) db.accounts src bA hnd hsrc
        (by rw [haeq]; simp)
    refine ⟨_, createTransactionSQL_ok_intro hsrc hdst hle hup1 hup2 hne
      (not_le.mpr hpos), ?_⟩
    show lookupBalance (addBalance (addBalance db.accounts src (-a)) dst a) src = some 0
    rw [lookupBalance_addBalance, lookupBalance_addBalance, hsrc,
      Option.map_some', Option.map_some']
    rw [if_neg hne, if_pos rfl, haeq]
    simp

/-- Concrete instance of `exact_balance_transfer`: transferring account 1's
entire balance of 10 to account 2 succeeds and zeroes account 1; the
insufficiency characterization holds on the same state. -/
theorem exact_balance_transfer_witness :
    ∃ db2, createTransactionSQL ⟨[(1, 10), (2, 20)], []⟩ 1 2 10 noFaults = .ok db2 ∧
      lookupBalance db2.accounts 1 = some 0 :=
  (exact_balance_transfer ⟨[(1, 10), (2, 20)], []⟩ 1 2 10 10 20
    (by decide) (by decide)
    (by simp [lookupBalance]) (by simp [lookupBalance])
    (by decide) (by decide)).2 rfl

/-- Counterexample to C5: the engine performs no argument re-validation.  A
call with source = destination (and sufficient balance), and a call with a
zero amount, are not rejected with any InvalidArgument-style error: they run
all the way to the record insertion, fail there on the schema constraints,
and surface the generic record-creation error, which the handler maps to
500, not to a 400 invalid-argument response. -/
theorem engine_lacks_argument_revalidation_cex :
    createTransactionSQL ⟨[(1, 10), (2, 10)], []⟩ 1 1 5 noFaults
      = .error "failed to create transaction record" ∧
    createTransactionSQL ⟨[(1, 10), (2, 10)], []⟩ 1 2 0 noFaults
      = .error "failed to create transaction record" ∧
    mapTxError "failed to create transaction record" = 500 := by
  refine ⟨?_, ?_, by decide⟩ <;>
    norm_num [createTransactionSQL, lookupBalance, noFaults, updateOK, addBalance]

/-- C5 as amended: the engine itself never fails with an InvalidArgument
error for `src = dst` or `a ≤ 0` — such calls (when they pass the earlier
lookups and balance check on a well-formed state) are stopped only by the
database constraints, surfacing as a storage-level error that the handler
maps to 500. -/
theorem engine_invalid_args_surface_as_storage_error
    (db : DBState) (src dst : Int) (a bA bB : ℚ)
    (hnd : (db.accounts.map Prod.fst).Nodup)
    (hsrc : lookupBalance db.accounts src = some bA)
    (hdst : lookupBalance db.accounts dst = some bB)
    (hle : ¬ bA < a)
    (harg : src = dst ∨ a ≤ 0) :
    ∃ e, createTransactionSQL db src dst a noFaults = .error e ∧ mapTxError e = 500 := by
  have hup1 : updateOK db.accounts src (-a) :=
    updateOK_of_lookup_nodup (-a) db.accounts src bA hnd hsrc
      (by linarith [not_lt.mp hle])
  by_cases hup2 : updateOK (addBalance db.accounts src (-a)) dst a
  · refine ⟨"failed to create transaction record", ?_, by decide⟩
    delta createTransactionSQL
    rw [if_neg (by simp [noFaults]), if_neg (by simp [noFaults]), hsrc]
    dsimp only
    rw [if_neg hle, if_neg (by simp [noFaults]), hdst]
    dsimp only
    rw [if_neg (by simp [noFaults]), if_neg (not_not.mpr hup1),
      if_neg (by simp [noFaults]), if_neg (not_not.mpr hup2),
      if_neg (by simp [noFaults]), if_pos harg]
  · refine ⟨"failed to update destination account", ?_, by decide⟩
    delta createTransactionSQL
    rw [if_neg (by simp [noFaults]), if_neg (by simp [noFaults]), hsrc]
    dsimp only
    rw [if_neg hle, if_neg (by simp [noFaults]), hdst]
    dsimp only
    rw [if_neg (by simp [noFaults]), if_neg (not_not.mpr hup1),
      if_neg (by simp [noFaults]), if_pos hup2]

/-- Concrete instance of `engine_invalid_args_surface_as_storage_error`:
a same-account call on a funded account yields a 500-mapped error. -/
theorem engine_invalid_args_surface_as_storage_error_witness :
    ∃ e, createTransactionSQL ⟨[(1, 10), (2, 10)], []⟩ 1 1 5 noFaults = .error e ∧
      mapTxError e = 500 :=
  engine_invalid_args_surface_as_storage_error ⟨[(1, 10), (2, 10)], []⟩ 1 1 5 10 10
    (by decide) (by simp [lookupBalance]) (by simp [lookupBalance])
    (by decide) (Or.inl rfl)

/-- Counterexample to C10: on a state where the source exists with balance 50
and the destination does not exist, a transfer of 100 makes the SQL engine
report "insufficient balance" (its balance check precedes the destination
lookup) while the mock reports "destination account not found" (it checks
destination existence first) — different outcome kinds. -/
theorem mock_sql_divergence_cex :
    createTransactionSQL ⟨[(1, 50)], []⟩ 1 2 100 noFaults
      = .error "insufficient balance" ∧
    mockCreateTransaction [(1, 50)] 1 2 100
      = .error "destination account not found" ∧
    kindOf (createTransactionSQL ⟨[(1, 50)], []⟩ 1 2 100 noFaults)
      ≠ kindOf (mockCreateTransaction [(1, 50)] 1 2 100) := by
  refine ⟨?_, ?_, ?_⟩
  · norm_num [createTransactionSQL, lookupBalance, noFaults]
  · norm_num [mockCreateTransaction, lookupBalance]
  · norm_num [createTransactionSQL, mockCreateTransaction, lookupBalance, noFaults, kindOf]
    decide

/-- C10 as amended: for contract-respecting calls (`src ≠ dst`, positive
amount) on a well-formed state, the SQL engine and the mock return the same
outcome kind except exactly when the source exists with balance below the
amount and the destination is missing; there the SQL engine reports
insufficient balance and the mock reports destination-not-found. -/
theorem mock_sql_outcome_agreement
    (accounts : List (Int × ℚ)) (txns : List Txn) (src dst : Int) (a : ℚ)
    (hnn : ∀ p ∈ accounts, 0 ≤ p.2)
    (hnd : (accounts.map Prod.fst).Nodup)
    (hne : src ≠ dst) (hpos : 0 < a) :
    (∀ bA, lookupBalance accounts src = some bA → bA < a →
      lookupBalance accounts dst = none →
        createTransactionSQL ⟨accounts, txns⟩ src dst a noFaults
          = .error "insufficient balance" ∧
        mockCreateTransaction accounts src dst a
          = .error "destination account not found") ∧
    ((∀ bA, lookupBalance accounts src = some bA →
        ¬ bA < a ∨ lookupBalance accounts dst ≠ none) →
      kindOf (createTransactionSQL ⟨accounts, txns⟩ src dst a noFaults)
        = kindOf (mockCreateTransaction accounts src dst a)) := by
  constructor
  · intro bA hbA hlt hdst
    constructor
    · delta createTransactionSQL
      dsimp only
      rw [if_neg (by simp [noFaults]), if_neg (by simp [noFaults]), hbA]
      dsimp only
      rw [if_pos hlt]
    · delta mockCreateTransaction
      rw [hbA]
      dsimp only
      rw [hdst]
  · intro hcond
    cases hs : lookupBalance accounts src with
    | none =>
      have e1 : createTransactionSQL ⟨accounts, txns⟩ src dst a noFaults
          = .error "source account not found" := by
        delta createTransactionSQL
        dsimp only
        rw [if_neg (by simp [noFaults]), if_neg (by simp [noFaults]), hs]
      have e2 : mockCreateTransaction accounts src dst a
          = .error "source account not found" := by
        delta mockCreateTransaction
        rw [hs]
      rw [e1, e2]
      rfl
    | some bA =>
      cases hd : lookupBalance accounts dst with
      | none =>
        rcases hcond bA hs with hge | hdst'
        · have e1 : createTransactionSQL ⟨accounts, txns⟩ src dst a noFaults
              = .error "destination account not found" := by
            delta createTransactionSQL
            dsimp only
            rw [if_neg (by simp [noFaults]), if_neg (by simp [noFaults]), hs]
            dsimp only
            rw [if_neg hge, if_neg (by simp [noFaults]), hd]
          have e2 : mockCreateTransaction accounts src dst a
              = .error "destination account not found" := by
            delta mockCreateTransaction
            rw [hs]
            dsimp only
            rw [hd]
          rw [e1, e2]
          rfl
        · exact absurd hd hdst'
      | some bB =>
        by_cases hlt : bA < a
        · have e1 : createTransactionSQL ⟨accounts, txns⟩ src dst a noFaults
              = .error "insufficient balance" := by
            delta createTransactionSQL
            dsimp only
            rw [if_neg (by simp [noFaults]), if_neg (by simp [noFaults]), hs]
            dsimp only
            rw [if_pos hlt]
          have e2 : mockCreateTransaction accounts src dst a
              = .error "insufficient balance" := by
            delta mockCreateTransaction
            rw [hs]
            dsimp only
            rw [hd]
            dsimp only
            rw [if_pos hlt]
          rw [e1, e2]
          rfl
        · have hup1 : updateOK accounts src (-a) :=
            updateOK_of_lookup_nodup (-a) accounts src bA hnd hs
              (by linarith [not_lt.mp hlt])
          have hlookup1 : lookupBalance (addBalance accounts src (-a)) dst = some bB := by
            rw [lookupBalance_addBalance, hd, Option.map_some']
            rw [if_neg (fun hc : dst = src => hne hc.symm)]
          have hnd1 : ((addBalance accounts src (-a)).map Prod.fst).Nodup := by
            rw [addBalance_keys]
            exact hnd
          have hBnn : 0 ≤ bB := hnn (dst, bB) (lookupBalance_mem hd)
          have hup2 : updateOK (addBalance accounts src (-a)) dst a :=
            updateOK_of_lookup_nodup a _ dst bB hnd1 hlookup1 (by linarith)
          have e1 := @createTransactionSQL_ok_intro ⟨accounts, txns⟩ src dst a bA bB
            hs hd hlt hup1 hup2 hne (not_le.mpr hpos)
          have e2 : mockCreateTransaction accounts src dst a
              = .ok (addBalance (addBalance accounts src (-a)) dst a) := by
            delta mockCreateTransaction
            rw [hs]
            dsimp only
            rw [hd]
            dsimp only
            rw [if_neg hlt]
          rw [e1, e2]
          rfl

/-- Concrete instance of `mock_sql_outcome_agreement`: on the
counterexample's state the two implementations are characterized exactly as
the amended claim says. -/
theorem mock_sql_outcome_agreement_witness :
    createTransactionSQL ⟨[(1, 50)], []⟩ 1 2 100 noFaults
      = .error "insufficient balance" ∧
    mockCreateTransaction [(1, 50)] 1 2 100
      = .error "destination account not found" :=
  (mock_sql_outcome_agreement [(1, 50)] [] 1 2 100
    (by decide) (by decide) (by decide) (by decide)).1 50
    (by simp [lookupBalance]) (by decide) (by simp [lookupBalance])

/-- C7: a transaction request with equal (positive) source and destination
ids — even with a well-formed positive amount — is answered 400 by the
handler before any repository call: no storage access, state unchanged. -/
theorem same_account_rejected_no_storage
    (db : DBState) (f : Faults) (src dst : Int) (s : String) (a : ℚ)
    (hs : 0 < src) (hd : 0 < dst) (heq : src = dst)
    (hparse : parseDecimal s = some a) (hpos : 0 < a) :
    createTransactionHandler db f ⟨src, dst, s⟩ = ⟨400, db, false⟩ := by
  delta createTransactionHandler
  dsimp only
  rw [if_neg (by omega : ¬ (src ≤ 0 ∨ dst ≤ 0)), if_pos heq]

/-- Concrete instance of `same_account_rejected_no_storage`: a transfer from
account 7 to account 7 of amount 5 on an arbitrary concrete state. -/
theorem same_account_rejected_no_storage_witness :
    createTransactionHandler ⟨[(7, 9)], []⟩ noFaults ⟨7, 7, "5"⟩
      = ⟨400, ⟨[(7, 9)], []⟩, false⟩ :=
  same_account_rejected_no_storage ⟨[(7, 9)], []⟩ noFaults 7 7 "5" 5
    (by decide) (by decide) rfl
    (by simp [parseDecimal, parseUnsigned, intPart, fracPart, DigitString, digitsVal])
    (by decide)

/-- C9: creating an account with a positive id and a well-formed non-negative
balance string either hits an existing id — 409, state unchanged — or
succeeds with 201 and the state extended by exactly the requested row. -/
theorem create_account_conflict_or_insert
    (db : DBState) (i : Int) (s : String) (b : ℚ)
    (hi : 0 < i) (hparse : parseDecimal s = some b) (hb : 0 ≤ b) :
    ((∃ b0, lookupBalance db.accounts i = some b0) →
      createAccountHandler db noFaults ⟨i, s⟩ = ⟨409, db, true⟩) ∧
    (lookupBalance db.accounts i = none →
      ∃ db2, createAccountHandler db noFaults ⟨i, s⟩ = ⟨201, db2, true⟩ ∧
        db2.accounts = db.accounts ++ [(i, b)] ∧
        db2.transactions = db.transactions ∧
        lookupBalance db2.accounts i = some b) := by
  constructor
  · rintro ⟨b0, hex⟩
    delta createAccountHandler
    dsimp only
    rw [if_neg (by omega : ¬ i ≤ 0), hparse]
    dsimp only
    rw [if_neg (not_lt.mpr hb), if_neg (by simp [noFaults]), if_pos (by simp [hex])]
  · intro hnone
    have hsql : createAccountSQL db i b noFaults
        = .ok ⟨db.accounts ++ [(i, b)], db.transactions⟩ := by
      delta createAccountSQL
      rw [if_neg (by simp [noFaults]), if_neg (by simp [hnone]), if_neg (not_lt.mpr hb)]
    refine ⟨⟨db.accounts ++ [(i, b)], db.transactions⟩, ?_, rfl, rfl, ?_⟩
    · delta createAccountHandler
      dsimp only
      rw [if_neg (by omega : ¬ i ≤ 0), hparse]
      dsimp only
      rw [if_neg (not_lt.mpr hb), if_neg (by simp [noFaults]), if_neg (by simp [hnone]),
        hsql]
    · show lookupBalance (db.accounts ++ [(i, b)]) i = some b
      rw [lookupBalance_append_right hnone]
      simp [lookupBalance]

/-- Concrete instance of `create_account_conflict_or_insert`: id 1 exists in
the state (409, unchanged); id 2 does not (201 with the new row). -/
theorem create_account_conflict_or_insert_witness :
    createAccountHandler ⟨[(1, 7)], []⟩ noFaults ⟨1, "5"⟩ = ⟨409, ⟨[(1, 7)], []⟩, true⟩ ∧
    (∃ db2, createAccountHandler ⟨[(1, 7)], []⟩ noFaults ⟨2, "5"⟩ = ⟨201, db2, true⟩ ∧
      db2.accounts = [(1, 7)] ++ [(2, 5)] ∧
      db2.transactions = [] ∧
      lookupBalance db2.accounts 2 = some 5) :=
  ⟨(create_account_conflict_or_insert ⟨[(1, 7)], []⟩ 1 "5" 5 (by decide)
      (by simp [parseDecimal, parseUnsigned, intPart, fracPart, DigitString, digitsVal])
      (by decide)).1 ⟨7, by simp [lookupBalance]⟩,
   (create_account_conflict_or_insert ⟨[(1, 7)], []⟩ 2 "5" 5 (by decide)
      (by simp [parseDecimal, parseUnsigned, intPart, fracPart, DigitString, digitsVal])
      (by decide)).2 (by simp [lookupBalance])⟩

/-- Every character of a string sits in its integer part, is the first dot,
or sits in its fractional part. -/
theorem mem_int_frac (c : Char) :
    ∀ cs : List Char, c ∈ cs →
      c ∈ intPart cs ∨ c = '.' ∨ ∃ fp, fracPart cs = some fp ∧ c ∈ fp := by
  intro cs
  induction cs with
  | nil => intro h; exact absurd h (List.not_mem_nil c)
  | cons d rest ih =>
    intro h
    by_cases hd : d = '.'
    · rcases List.mem_cons.mp h with hc | hc
      · exact Or.inr (Or.inl (hc.trans hd))
      · exact Or.inr (Or.inr ⟨rest, by simp [fracPart, hd], hc⟩)
    · rcases List.mem_cons.mp h with hc | hc
      · refine Or.inl ?_
        rw [intPart, if_neg hd, hc]
        exact List.mem_cons_self _ _
      · rcases ih hc with h1 | h2 | ⟨fp, hfp, hcfp⟩
        · refine Or.inl ?_
          rw [intPart, if_neg hd]
          exact List.mem_cons_of_mem _ h1
        · exact Or.inr (Or.inl h2)
        · exact Or.inr (Or.inr ⟨fp, by rw [fracPart, if_neg hd]; exact hfp, hcfp⟩)

/-- A string the decimal grammar accepts contains only digits and dots after
its optional sign. -/
theorem parseUnsigned_chars {cs : List Char} {q : ℚ} (h : parseUnsigned cs = some q) :
    ∀ c ∈ cs, c.isDigit = true ∨ c = '.' := by
  intro c hc
  have hmem := mem_int_frac c cs hc
  delta parseUnsigned at h
  cases hfp : fracPart cs with
  | none =>
    rw [hfp] at h
    dsimp only at h
    by_cases hds : DigitString (intPart cs)
    swap
    · rw [if_neg hds] at h
      exact Option.noConfusion h
    rcases hmem with h1 | h2 | ⟨fp, hfp2, _⟩
    · exact Or.inl (hds.2 c h1)
    · exact Or.inr h2
    · rw [hfp] at hfp2
      exact Option.noConfusion hfp2
  | some fp =>
    rw [hfp] at h
    dsimp only at h
    by_cases hds : DigitString (intPart cs) ∧ DigitString fp
    swap
    · rw [if_neg hds] at h
      exact Option.noConfusion h
    rcases hmem with h1 | h2 | ⟨fp2, hfp2, hcf⟩
    · exact Or.inl (hds.1.2 c h1)
    · exact Or.inr h2
    · rw [hfp] at hfp2
      obtain rfl : fp2 = fp := Option.some.inj hfp2.symm
      exact Or.inl (hds.2.2 c hcf)

/-- A string containing any character other than a digit, a dot or a minus
sign is rejected by the decimal grammar. -/
theorem parseDecimal_bad_none {s : String} (hbad : hasBadChar s) :
    parseDecimal s = none := by
  obtain ⟨c, hcs, hdig, hdot, hdash⟩ := hbad
  cases hp : parseDecimal s with
  | none => rfl
  | some q =>
    exfalso
    delta parseDecimal at hp
    cases hsd : s.data with
    | nil =>
      rw [hsd] at hcs
      exact absurd hcs (List.not_mem_nil c)
    | cons c0 rest =>
      rw [hsd] at hp hcs
      dsimp only at hp
      by_cases h0 : c0 = '-'
      · rw [if_pos h0] at hp
        cases hpu : parseUnsigned rest with
        | none =>
          rw [hpu] at hp
          exact Option.noConfusion hp
        | some q2 =>
          rcases List.mem_cons.mp hcs with hc | hc
          · exact hdash (hc.trans h0)
          · rcases parseUnsigned_chars hpu c hc with h1 | h2
            · rw [h1] at hdig
              exact Bool.noConfusion hdig
            · exact hdot h2
      · rw [if_neg h0] at hp
        rcases parseUnsigned_chars hp c hcs with h1 | h2
        · rw [h1] at hdig
          exact Bool.noConfusion hdig
        · exact hdot h2

/-- C8: any amount or initial-balance string containing a character outside
the decimal grammar — an exponent marker as in "1e10", or non-numeric text —
fails to parse, and both handlers answer 400 without touching storage or the
state.  Only plain base-10 strings (optional sign, optional fractional part)
parse at all. -/
theorem malformed_decimal_rejected (s : String) (hbad : hasBadChar s) :
    parseDecimal s = none ∧
    ∀ (db : DBState) (f : Faults) (i src dst : Int),
      createAccountHandler db f ⟨i, s⟩ = ⟨400, db, false⟩ ∧
      createTransactionHandler db f ⟨src, dst, s⟩ = ⟨400, db, false⟩ := by
  have hnone := parseDecimal_bad_none hbad
  refine ⟨hnone, fun db f i src dst => ⟨?_, ?_⟩⟩
  · delta createAccountHandler
    dsimp only
    by_cases hi : i ≤ 0
    · rw [if_pos hi]
    · rw [if_neg hi, hnone]
  · delta createTransactionHandler
    dsimp only
    by_cases hids : src ≤ 0 ∨ dst ≤ 0
    · rw [if_pos hids]
    · rw [if_neg hids]
      by_cases hsd : src = dst
      · rw [if_pos hsd]
      · rw [if_neg hsd, hnone]

/-- Concrete instance of `malformed_decimal_rejected`: scientific notation
"1e10" is rejected with 400 by both handlers, with no storage access. -/
theorem malformed_decimal_rejected_witness :
    parseDecimal "1e10" = none ∧
    createAccountHandler ⟨[], []⟩ noFaults ⟨1, "1e10"⟩ = ⟨400, ⟨[], []⟩, false⟩ ∧
    createTransactionHandler ⟨[], []⟩ noFaults ⟨1, 2, "1e10"⟩
      = ⟨400, ⟨[], []⟩, false⟩ :=
  ⟨(malformed_decimal_rejected "1e10" (by decide)).1,
   ((malformed_decimal_rejected "1e10" (by decide)).2 ⟨[], []⟩ noFaults 1 1 2).1,
   ((malformed_decimal_rejected "1e10" (by decide)).2 ⟨[], []⟩ noFaults 1 1 2).2⟩

/-- A successful account insertion preserves non-negativity of all balances
(the inserted row passes the `CHECK (balance >= 0)` constraint). -/
theorem createAccountSQL_nonneg {db : DBState} {i : Int} {bal : ℚ} {f : Faults}
    {db2 : DBState}
    (hl : ∀ p ∈ db.accounts, 0 ≤ p.2)
    (h : createAccountSQL db i bal f = .ok db2) :
    ∀ p ∈ db2.accounts, 0 ≤ p.2 := by
  delta createAccountSQL at h
  by_cases h1 : f.insertAccount = true
  · rw [if_pos h1] at h
    exact Except.noConfusion h
  rw [if_neg h1] at h
  by_cases h2 : (lookupBalance db.accounts i).isSome = true
  · rw [if_pos h2] at h
    exact Except.noConfusion h
  rw [if_neg h2] at h
  by_cases h3 : bal < 0
  · rw [if_pos h3] at h
    exact Except.noConfusion h
  rw [if_neg h3] at h
  obtain rfl := Except.ok.inj h
  intro p hp
  rcases List.mem_append.mp hp with hc | hc
  · exact hl p hc
  · rw [List.mem_singleton.mp hc]
    exact not_lt.mp h3

/-- A successful transfer preserves non-negativity of all balances (both
updates pass the `CHECK (balance >= 0)` constraint). -/
theorem createTransactionSQL_nonneg {db : DBState} {src dst : Int} {a : ℚ}
    {f : Faults} {db2 : DBState}
    (hl : ∀ p ∈ db.accounts, 0 ≤ p.2)
    (h : createTransactionSQL db src dst a f = .ok db2) :
    ∀ p ∈ db2.accounts, 0 ≤ p.2 := by
  obtain ⟨bA, bB, hsrc, hdst, hlt, hup1, hup2, hne, hpos, hdb2⟩ :=
    createTransactionSQL_ok_elim h
  subst hdb2
  exact addBalance_nonneg dst a (addBalance db.accounts src (-a))
    (addBalance_nonneg src (-a) db.accounts hl hup1) hup2

/-- The account-creation handler never produces a negative balance. -/
theorem createAccountHandler_nonneg {db : DBState} {f : Faults}
    {req : CreateAccountRequest}
    (hl : ∀ p ∈ db.accounts, 0 ≤ p.2) :
    ∀ p ∈ (createAccountHandler db f req).db.accounts, 0 ≤ p.2 := by
  delta createAccountHandler
  by_cases h1 : req.accountID ≤ 0
  · rw [if_pos h1]
    exact hl
  rw [if_neg h1]
  cases hp : parseDecimal req.initialBalance with
  | none => exact hl
  | some bal =>
    dsimp only
    by_cases h2 : bal < 0
    · rw [if_pos h2]
      exact hl
    rw [if_neg h2]
    by_cases h3 : f.existsQuery = true
    · rw [if_pos h3]
      exact hl
    rw [if_neg h3]
    by_cases h4 : (lookupBalance db.accounts req.accountID).isSome = true
    · rw [if_pos h4]
      exact hl
    rw [if_neg h4]
    cases hq : createAccountSQL db req.accountID bal f with
    | ok db2 => exact createAccountSQL_nonneg hl hq
    | error e => exact hl

/-- The transaction handler never produces a negative balance. -/
theorem createTransactionHandler_nonneg {db : DBState} {f : Faults}
    {req : CreateTransactionRequest}
    (hl : ∀ p ∈ db.accounts, 0 ≤ p.2) :
    ∀ p ∈ (createTransactionHandler db f req).db.accounts, 0 ≤ p.2 := by
  delta createTransactionHandler
  by_cases h1 : req.sourceAccountID ≤ 0 ∨ req.destinationAccountID ≤ 0
  · rw [if_pos h1]
    exact hl
  rw [if_neg h1]
  by_cases h2 : req.sourceAccountID = req.destinationAccountID
  · rw [if_pos h2]
    exact hl
  rw [if_neg h2]
  cases hp : parseDecimal req.amount with
  | none => exact hl
  | some a =>
    dsimp only
    by_cases h3 : a = 0 ∨ a < 0
    · rw [if_pos h3]
      exact hl
    rw [if_neg h3]
    cases hq : createTransactionSQL db req.sourceAccountID req.destinationAccountID a f with
    | ok db2 => exact createTransactionSQL_nonneg hl hq
    | error e => exact hl

/-- C3: every state reachable from the empty store through the HTTP
operations — account creations and transfers, with arbitrary injected
storage faults — has only non-negative balances; moreover account creation
rejects a parsed negative initial balance with 400 and no storage access,
and a transfer only commits when the source balance was at least the
amount. -/
theorem reachable_balances_nonneg :
    (∀ (ops : List Op) (i : Int) (b : ℚ),
      lookupBalance (runOps ops).accounts i = some b → 0 ≤ b) ∧
    (∀ (db : DBState) (f : Faults) (i : Int) (s : String) (bal : ℚ),
      parseDecimal s = some bal → bal < 0 →
        createAccountHandler db f ⟨i, s⟩ = ⟨400, db, false⟩) ∧
    (∀ (db : DBState) (src dst : Int) (a : ℚ) (f : Faults) (db2 : DBState),
      createTransactionSQL db src dst a f = .ok db2 →
        ∃ bA, lookupBalance db.accounts src = some bA ∧ a ≤ bA) := by
  refine ⟨?_, ?_, ?_⟩
  · have key : ∀ (ops : List Op) (db : DBState),
        (∀ p ∈ db.accounts, 0 ≤ p.2) →
        ∀ p ∈ (ops.foldl applyOp db).accounts, 0 ≤ p.2 := by
      intro ops
      induction ops with
      | nil => intro db h; exact h
      | cons op rest ih =>
        intro db h
        rw [List.foldl_cons]
        refine ih (applyOp db op) ?_
        cases op with
        | newAccount i bal f => exact createAccountHandler_nonneg h
        | newTransfer src dst a f => exact createTransactionHandler_nonneg h
    intro ops i b hlook
    exact key ops ⟨[], []⟩ (fun p hp => absurd hp (List.not_mem_nil p)) (i, b)
      (lookupBalance_mem hlook)
  · intro db f i s bal hparse hneg
    delta createAccountHandler
    dsimp only
    by_cases h1 : i ≤ 0
    · rw [if_pos h1]
    · rw [if_neg h1, hparse]
      dsimp only
      rw [if_pos hneg]
  · intro db src dst a f db2 h
    obtain ⟨bA, bB, hsrc, hdst, hlt, h4, h5, h6, h7, h8⟩ :=
      createTransactionSQL_ok_elim h
    exact ⟨bA, hsrc, not_lt.mp hlt⟩

/-- Concrete instance of `reachable_balances_nonneg`: after creating account
1 with 5 and account 2 with 1 and transferring 3 from 1 to 2, account 1
holds 2, which the invariant confirms non-negative. -/
theorem reachable_balances_nonneg_witness : (0 : ℚ) ≤ 2 :=
  reachable_balances_nonneg.1
    [.newAccount 1 "5" noFaults, .newAccount 2 "1" noFaults,
     .newTransfer 1 2 "3" noFaults] 1 2
    (by simp [runOps, applyOp, createAccountHandler, createTransactionHandler,
      createAccountSQL, createTransactionSQL, parseDecimal, parseUnsigned, intPart,
      fracPart, DigitString, digitsVal, lookupBalance, noFaults, mapTxError,
      updateOK, addBalance]
        norm_num
        simp [lookupBalance])
